import Mathlib

/-!
Verification of the growthcraft_api content-generation server
(`src/logger.js` server portion, `src/stripe.js`) against its
natural-language specification.

The embedding models, faithfully to the JavaScript source:
  * the markdown fence-stripping applied to provider replies
    (`text.replace(/```json\n/, '').replace(/```/g, '').trim()`),
  * the facts-stage cleaning (`$` to `USD `, control-character removal),
  * a JSON value type and a JSON parser modelling `JSON.parse` on the
    fragment the server exchanges (objects, arrays, strings with
    standard escapes including `\uXXXX`, integers, booleans, null;
    no fractional/exponent numbers, no surrogate pairs),
  * the route handlers (validation, cleaning, parsing, response and
    datastore-update behaviour), with the external provider reply and
    the datastore passed in explicitly as values.
-/

/-! ### Characters and string helpers

JavaScript strings are modelled as `List Char`.  The backtick character
is written `Char.ofNat 96` throughout.
-/

/-- The backtick character, U+0060. -/
def btick : Char := Char.ofNat 96

/-- `chkPre p s` is true iff `p` is a prefix of `s` (character-wise).
This is the primitive used to model where a regex literal matches. -/
def chkPre : List Char → List Char → Bool
  | [], _ => true
  | _ :: _, [] => false
  | a :: as, b :: bs => if a = b then chkPre as bs else false

/-- The pattern of the regex `/```json\n/`. -/
def jfPat : List Char := [btick, btick, btick, 'j', 's', 'o', 'n', '\n']

/-- Whether the pattern ```` ```json\n ```` occurs anywhere in the string
(the regex `/```json\n/` has a match). -/
def hasJF : List Char → Bool
  | [] => false
  | c :: rest => chkPre jfPat (c :: rest) || hasJF rest

/-- `text.replace(/```json\n/, '')`: remove the first (leftmost)
occurrence of ```` ```json\n ````, if any; a non-global JavaScript
`replace` rewrites only the first match. -/
def stripJsonFence : List Char → List Char
  | [] => []
  | c :: rest =>
    if chkPre jfPat (c :: rest) then (c :: rest).drop jfPat.length
    else c :: stripJsonFence rest

/-- `text.replace(/```/g, '')`: remove every (leftmost, non-overlapping)
occurrence of three consecutive backticks, scanning left to right. -/
def stripTicks : List Char → List Char
  | c :: d :: e :: rest =>
    if c = btick ∧ d = btick ∧ e = btick then stripTicks rest
    else c :: stripTicks (d :: e :: rest)
  | s => s

/-- The white-space characters removed by JavaScript `String.prototype.trim`
(ECMAScript WhiteSpace and LineTerminator code points). -/
def isWsJs (c : Char) : Bool :=
  c = ' ' || c = '\t' || c = '\n' || c = '\r' || c = '\x0b' || c = '\x0c' ||
  c = '\u00A0' || c = '\u1680' || ('\u2000' ≤ c && c ≤ '\u200A') ||
  c = '\u2028' || c = '\u2029' || c = '\u202F' || c = '\u205F' ||
  c = '\u3000' || c = '\uFEFF'

/-- JavaScript `s.trim()`: drop white space from both ends. -/
def jsTrim (s : List Char) : List Char :=
  List.rdropWhile isWsJs (s.dropWhile isWsJs)

/-- The response unwrapping shared by the structure, facts, verify and
email-campaign stages:
`text.replace(/```json\n/, '').replace(/```/g, '').trim()`. -/
def cleanFence (s : List Char) : List Char :=
  jsTrim (stripTicks (stripJsonFence s))

/-- `text.replace(/\$/g, 'USD ')` in the facts stage. -/
def replaceDollar : List Char → List Char
  | [] => []
  | c :: rest =>
    if c = '$' then 'U' :: 'S' :: 'D' :: ' ' :: replaceDollar rest
    else c :: replaceDollar rest

/-- Membership in the character class `[\x00-\x1F\x7F-\x9F]` of the
facts-stage control-character strip. -/
def isCtl (c : Char) : Bool :=
  c.val ≤ 0x1f || (0x7f ≤ c.val && c.val ≤ 0x9f)

/-- `text.replace(/[\x00-\x1F\x7F-\x9F]/g, '')` in the facts stage. -/
def removeCtl (s : List Char) : List Char :=
  s.filter (fun c => !(isCtl c))

/-- The full facts-stage cleaning: fence stripping and trim, then the
dollar rewrite, then the control-character strip (source order). -/
def cleanFacts (raw : List Char) : List Char :=
  removeCtl (replaceDollar (cleanFence raw))

/-- `t` ends with the seven characters ```` ```json ````.  Used as a
decidable hypothesis in the fence-invariance theorem; no valid JSON text
ends this way (a JSON text can only end in a closing brace or bracket, `"`, a digit,
`e`, `l`, or white space, never in `n`). -/
def endsTicksJson (t : List Char) : Bool :=
  chkPre ['n', 'o', 's', 'j', btick, btick, btick] t.reverse

/-! ### JSON values and `JSON.parse`

`Json` models a JavaScript JSON value.  `jsonParse` models `JSON.parse`
on the fragment the server exchanges: it accepts objects, arrays,
strings (with the standard single-character escapes and `\uXXXX` basic
multilingual plane escapes), integer numbers, `true`, `false`, `null`,
and insists — like `JSON.parse` — that nothing but white space follows
the value.  Fractional/exponent numbers and surrogate-pair escapes are
outside the modelled fragment.  The parser is fuelled; the fuel
`length + 1` suffices for every input whose nesting is bounded by its
length, in particular every input considered in this development. -/

inductive Json where
  | null : Json
  | bool (b : Bool) : Json
  | num (n : Int) : Json
  | str (s : String) : Json
  | arr (xs : List Json) : Json
  | obj (kvs : List (String × Json)) : Json

/-- Look a key up in the field list of a JSON object (first match). -/
def jsObjGet : List (String × Json) → String → Option Json
  | [], _ => none
  | (k', v) :: rest, k => if k' = k then some v else jsObjGet rest k

/-- JavaScript property read `v[k]` on a value that is not
`null`/`undefined`: an object yields the field (or `undefined`, i.e.
`none`), any other value yields `undefined`. -/
def jsGetOpt : Json → String → Option Json
  | .obj kvs, k => jsObjGet kvs k
  | _, _ => none

/-- JavaScript property read `v[k]` including the `TypeError` on `null`
(`.error ()` models the thrown exception). -/
def jsMember : Json → String → Except Unit (Option Json)
  | .null, _ => .error ()
  | .obj kvs, k => .ok (jsObjGet kvs k)
  | _, _ => .ok none

/-- JavaScript truthiness of a JSON value. -/
def jsTruthy : Json → Bool
  | .null => false
  | .bool b => b
  | .num n => !(n = 0)
  | .str s => !(s = "")
  | .arr _ => true
  | .obj _ => true

/-- Truthiness of a possibly-absent (`undefined`) value. -/
def optTruthy : Option Json → Bool
  | none => false
  | some v => jsTruthy v

/-- JavaScript property assignment `o[k] = v` on a plain object: an
existing key is overwritten in place, a new key is appended. -/
def jsSetField : List (String × Json) → String → Json → List (String × Json)
  | [], k, v => [(k, v)]
  | (k', v') :: rest, k, v =>
    if k' = k then (k, v) :: rest else (k', v') :: jsSetField rest k v

/-- Whether an object value has the given key. -/
def jsHasKey (v : Json) (k : String) : Bool :=
  (jsGetOpt v k).isSome

/-- `structure?.k ∥ default` — the `||`-defaulting used when deriving
post metadata: a missing, `undefined` or otherwise falsy value falls
back to the default. -/
def jsOrDefault (v : Option Json) (d : Json) : Json :=
  match v with
  | some x => if jsTruthy x then x else d
  | none => d

/-- JSON white space accepted by `JSON.parse`. -/
def isWsJson (c : Char) : Bool :=
  c = ' ' || c = '\t' || c = '\n' || c = '\r'

/-- Drop leading JSON white space. -/
def skipWs (s : List Char) : List Char :=
  s.dropWhile isWsJson

/-- Value of a hexadecimal digit. -/
def hexVal (c : Char) : Option Nat :=
  if '0' ≤ c ∧ c ≤ '9' then some (c.toNat - 48)
  else if 'a' ≤ c ∧ c ≤ 'f' then some (c.toNat - 87)
  else if 'A' ≤ c ∧ c ≤ 'F' then some (c.toNat - 55)
  else none

/-- Read the four hex digits of a `\uXXXX` escape. -/
def parseHex4 : List Char → Option (Nat × List Char)
  | a :: b :: c :: d :: r => do
    let va ← hexVal a
    let vb ← hexVal b
    let vc ← hexVal c
    let vd ← hexVal d
    some (((va * 16 + vb) * 16 + vc) * 16 + vd, r)
  | _ => none

/-- The single-character JSON string escapes. -/
def escChar : Char → Option Char
  | '"' => some '"'
  | '/' => some '/'
  | 'b' => some '\x08'
  | 'f' => some '\x0c'
  | 'n' => some '\n'
  | 'r' => some '\r'
  | 't' => some '\t'
  | c => if c = '\\' then some '\\' else none

/-- Whether a character is a decimal digit. -/
def isDigitCh (c : Char) : Bool :=
  '0' ≤ c && c ≤ '9'

/-- Numeric value of a digit string (most significant first). -/
def natOfDigits (ds : List Char) : Nat :=
  ds.foldl (fun a c => a * 10 + (c.toNat - 48)) 0

/-- Whether a digit run is a valid JSON integer literal: non-empty, and
a leading `0` only as the single digit `0` (JSON rejects `01`). -/
def digitsOkJson : List Char → Bool
  | [] => false
  | '0' :: rest => rest.isEmpty
  | _ :: _ => true

/-- Parse an integer JSON number (optional minus, digits, no leading
zeros), as in the JSON number grammar restricted to integers. -/
def parseNum (s : List Char) : Option (Json × List Char) :=
  match s with
  | '-' :: r =>
    let ds := r.takeWhile isDigitCh
    if digitsOkJson ds then some (.num (-(natOfDigits ds : Int)), r.drop ds.length)
    else none
  | _ =>
    let ds := s.takeWhile isDigitCh
    if digitsOkJson ds then some (.num (natOfDigits ds : Int), s.drop ds.length)
    else none

mutual

/-- Parse one JSON value (fuelled recursive descent). -/
def parseVal : Nat → List Char → Option (Json × List Char)
  | 0, _ => none
  | fuel + 1, s =>
    match skipWs s with
    | 'n' :: 'u' :: 'l' :: 'l' :: r => some (.null, r)
    | 't' :: 'r' :: 'u' :: 'e' :: r => some (.bool true, r)
    | 'f' :: 'a' :: 'l' :: 's' :: 'e' :: r => some (.bool false, r)
    | '"' :: r =>
      (parseStrBody fuel [] r).map (fun p => (.str (String.mk p.1), p.2))
    | '[' :: r =>
      match skipWs r with
      | ']' :: r2 => some (.arr [], r2)
      | _ => (parseElems fuel r).map (fun p => (.arr p.1, p.2))
    | '{' :: r =>
      match skipWs r with
      | '}' :: r2 => some (.obj [], r2)
      | _ => (parseMembers fuel r).map (fun p => (.obj p.1, p.2))
    | t => parseNum t

/-- Parse the body of a JSON string after the opening quote, returning
the accumulated characters (in reverse accumulator style) and the rest. -/
def parseStrBody : Nat → List Char → List Char → Option (List Char × List Char)
  | 0, _, _ => none
  | _ + 1, acc, '"' :: r => some (acc.reverse, r)
  | fuel + 1, acc, '\\' :: e :: r =>
    if e = 'u' then
      match parseHex4 r with
      | some (n, r2) => parseStrBody fuel (Char.ofNat n :: acc) r2
      | none => none
    else
      match escChar e with
      | some c => parseStrBody fuel (c :: acc) r
      | none => none
  | fuel + 1, acc, c :: r =>
    if c.val < 32 then none else parseStrBody fuel (c :: acc) r
  | _, _, [] => none

/-- Parse the comma-separated elements of a non-empty JSON array. -/
def parseElems : Nat → List Char → Option (List Json × List Char)
  | 0, _ => none
  | fuel + 1, s =>
    match parseVal fuel s with
    | none => none
    | some (v, r) =>
      match skipWs r with
      | ',' :: r2 =>
        match parseElems fuel r2 with
        | none => none
        | some (vs, r3) => some (v :: vs, r3)
      | ']' :: r2 => some ([v], r2)
      | _ => none

/-- Parse the comma-separated members of a non-empty JSON object. -/
def parseMembers : Nat → List Char → Option (List (String × Json) × List Char)
  | 0, _ => none
  | fuel + 1, s =>
    match skipWs s with
    | '"' :: r =>
      match parseStrBody fuel [] r with
      | none => none
      | some (key, r2) =>
        match skipWs r2 with
        | ':' :: r3 =>
          match parseVal fuel r3 with
          | none => none
          | some (v, r4) =>
            match skipWs r4 with
            | ',' :: r5 =>
              match parseMembers fuel r5 with
              | none => none
              | some (kvs, r6) => some ((String.mk key, v) :: kvs, r6)
            | '}' :: r5 => some ([(String.mk key, v)], r5)
            | _ => none
        | _ => none
    | _ => none

end

/-- `JSON.parse`: parse one value and require only white space after it. -/
def jsonParse (s : List Char) : Option Json :=
  match parseVal (s.length + 1) s with
  | some (v, rest) => if (skipWs rest).isEmpty then some v else none
  | none => none

/-! ### HTTP responses and route handler models

Each handler is a pure function of the request-body fields it reads, the
external provider's textual reply, and (where relevant) the datastore
contents, a timestamp and the insert outcome.  Absent request fields are
`none` (JavaScript `undefined`).  Response bodies carrying an exception
message as `details` keep only the stable `error` field plus any field
built from modelled data. -/

/-- An HTTP response with a JSON body. -/
structure HResp where
  status : Nat
  body : Json

/-- A 400 response with an error message, as produced by the validation
branches. -/
def err400 (msg : String) : HResp :=
  ⟨400, .obj [("error", .str msg)]⟩

/-- A 500 response with an error message. -/
def err500 (msg : String) : HResp :=
  ⟨500, .obj [("error", .str msg)]⟩

/-- Request body of `POST /api/generate/structure`. -/
structure StructureReq where
  titleConcept : Option Json
  company : Option Json

/-- `POST /api/generate/structure`: validate (`!titleConcept || !company`,
then the three company fields), then call the provider, strip fences,
`JSON.parse`, and return the parsed value verbatim.  The second
component records whether the external provider was called. -/
def structureHandler (req : StructureReq) (reply : List Char) : HResp × Bool :=
  if !(optTruthy req.titleConcept && optTruthy req.company) then
    (err400 "Missing required fields", false)
  else
    match req.company with
    | none => (err400 "Missing required fields", false)
    | some c =>
      if !(optTruthy (jsGetOpt c "company_name") &&
           optTruthy (jsGetOpt c "industry") &&
           optTruthy (jsGetOpt c "tagline")) then
        (err400 "Missing company information", false)
      else
        let cleaned := cleanFence reply
        match jsonParse cleaned with
        | some v => (⟨200, v⟩, true)
        | none =>
          (⟨500, .obj [("error", .str "Failed to generate valid blog structure"),
                       ("details", .str (String.mk cleaned))]⟩, true)

/-- `POST /api/generate/facts`: validate that `questions` is a non-empty
array, call the provider, clean (fences, `$` → `USD `, control
characters), `JSON.parse`, and return the parsed value verbatim. -/
def factsHandler (questions : Option Json) (reply : List Char) : HResp :=
  match questions with
  | some (.arr (_ :: _)) =>
    let cleaned := cleanFacts reply
    match jsonParse cleaned with
    | some v => ⟨200, v⟩
    | none =>
      ⟨500, .obj [("error", .str "Failed to parse facts response"),
                  ("rawText", .str (String.mk cleaned))]⟩
  | _ => err400 "Please provide an array of questions under \"questions\""

/-- Request body of `POST /api/generate/article`.  The source field
`structure` is spelled `structure_` (Lean keyword). -/
structure ArticleReq where
  structure_ : Option Json
  facts : Option Json
  tone : Option Json
  style : Option Json
  company : Option Json

/-- `POST /api/generate/article`: no validation.  Building the prompt
reads `company.company_name`; if `company` is absent or `null` that read
throws a `TypeError`, caught by the route's `catch`, producing a 500.
Otherwise the provider's markdown comes back verbatim as `{ content }`. -/
def articleHandler (req : ArticleReq) (reply : String) : HResp :=
  match req.company with
  | none => err500 "Failed to generate article"
  | some c =>
    match jsMember c "company_name" with
    | .error _ => err500 "Failed to generate article"
    | .ok _ => ⟨200, .obj [("content", .str reply)]⟩

/-- `POST /api/generate/verify`: validate `draft`, call the provider,
strip fences, `JSON.parse`, return the parsed value verbatim. -/
def verifyHandler (draft : Option Json) (reply : List Char) : HResp :=
  if !(optTruthy draft) then
    err400 "Please provide a \"draft\" field with the blog post text."
  else
    let cleaned := cleanFence reply
    match jsonParse cleaned with
    | some v => ⟨200, v⟩
    | none =>
      ⟨500, .obj [("error", .str "Failed to generate valid verification response"),
                  ("details", .str (String.mk cleaned))]⟩

/-- The validation prefix of `createCheckoutSession` (`src/stripe.js`):
`!priceId || !userId` yields a 400; `none` means validation passed and
the handler proceeds to the external billing/datastore calls, which are
outside the modelled fragment. -/
def createCheckoutSessionValidation (priceId userId : Option Json) : Option HResp :=
  if !(optTruthy priceId && optTruthy userId) then
    some (err400 "Missing required fields")
  else none

/-- A persisted `blog_posts` row.  The source column `structure` is
spelled `structure_` (Lean keyword).  Nullable columns are `Option`. -/
structure BlogRow where
  id : String
  user_id : Option Json
  company_id : Option Json
  title_concept : Option Json
  structure_ : Option Json
  facts : Option Json
  article : Option Json
  polished : Option Json
  final_html : Option Json
  metadata : Option Json
  created_at : Option Json
  instagram_post_content : Option Json
  instagram_hashtags : Option Json
  facebook_post_content : Option Json
  facebook_post_link : Option Json
  x_post_content : Option Json
  x_hashtags : Option Json
  linkedin_post_content : Option Json
  linkedin_post_link : Option Json
  social_posts_generated_at : Option Json
  email_drip_campaigns : Option Json

/-- `supabase.from('blog_posts').update(...).eq('id', id)`: apply the
column update to every row whose id matches. -/
def dbUpdate (db : List BlogRow) (id : String) (f : BlogRow → BlogRow) : List BlogRow :=
  db.map (fun r => if r.id = id then f r else r)

/-- The eight social-media column values read out of the parsed provider
reply (in source evaluation order). -/
structure SocialArgs where
  ig_content : Option Json
  ig_hashtags : Option Json
  fb_content : Option Json
  fb_link : Option Json
  x_content : Option Json
  x_hashtags : Option Json
  li_content : Option Json
  li_link : Option Json

/-- `socialPosts[chan][fld]`: reading `fld` off a missing channel is a
read on `undefined` and throws (`.error`), as does a `null` channel. -/
def getChanField (sp : Json) (chan fld : String) : Except Unit (Option Json) :=
  match jsMember sp chan with
  | .error _ => .error ()
  | .ok none => .error ()
  | .ok (some v) => jsMember v fld

/-- Evaluate the eight property reads of the social update object
literal; any throw aborts the update (the object literal is evaluated
before `update` is called). -/
def buildSocialArgs (sp : Json) : Except Unit SocialArgs :=
  match getChanField sp "Instagram" "content", getChanField sp "Instagram" "hashtags",
        getChanField sp "Facebook" "content", getChanField sp "Facebook" "link",
        getChanField sp "X" "content", getChanField sp "X" "hashtags",
        getChanField sp "LinkedIn" "content", getChanField sp "LinkedIn" "link" with
  | .ok a1, .ok a2, .ok a3, .ok a4, .ok a5, .ok a6, .ok a7, .ok a8 =>
    .ok ⟨a1, a2, a3, a4, a5, a6, a7, a8⟩
  | _, _, _, _, _, _, _, _ => .error ()

/-- Overwrite a column with a provided value; an `undefined` value is
dropped from the JSON update payload, leaving the column unchanged. -/
def setCol (new : Option Json) (old : Option Json) : Option Json :=
  match new with
  | some v => some v
  | none => old

/-- The social update: writes the eight social-media columns and
`social_posts_generated_at`, nothing else. -/
def applySocial (a : SocialArgs) (ts : String) (r : BlogRow) : BlogRow :=
  { r with
    instagram_post_content := setCol a.ig_content r.instagram_post_content
    instagram_hashtags := setCol a.ig_hashtags r.instagram_hashtags
    facebook_post_content := setCol a.fb_content r.facebook_post_content
    facebook_post_link := setCol a.fb_link r.facebook_post_link
    x_post_content := setCol a.x_content r.x_post_content
    x_hashtags := setCol a.x_hashtags r.x_hashtags
    linkedin_post_content := setCol a.li_content r.linkedin_post_content
    linkedin_post_link := setCol a.li_link r.linkedin_post_link
    social_posts_generated_at := some (.str ts) }

/-- `POST /api/posts/:id/social`: validate `content`, parse the trimmed
provider reply (no fence stripping on this route), fetch the post,
evaluate the update object, then update; every failure is a 500 taken
before the update. -/
def socialHandler (db : List BlogRow) (id : String) (content : Option Json)
    (reply : List Char) (ts : String) : HResp × List BlogRow :=
  if !(optTruthy content) then (err400 "Content is required", db)
  else
    match jsonParse (jsTrim reply) with
    | none => (err500 "Failed to generate social media posts", db)
    | some sp =>
      match db.find? (fun r => r.id = id) with
      | none => (err500 "Failed to generate social media posts", db)
      | some _ =>
        match buildSocialArgs sp with
        | .error _ => (err500 "Failed to generate social media posts", db)
        | .ok args => (⟨200, sp⟩, dbUpdate db id (applySocial args ts))

/-- The email-campaign update: writes only `email_drip_campaigns`. -/
def applyEmail (v : Json) (r : BlogRow) : BlogRow :=
  { r with email_drip_campaigns := some v }

/-- `POST /api/posts/:id/email-campaign`: validate `content`, strip
fences and parse the reply, stamp `generated_at`, update the single
column, respond with the stamped value.  The stamp assignment
`emailCampaign.generated_at = ...` behaves differently by parse result:
on a plain object it adds/overwrites the field; on an **array** it also
succeeds (arrays are ordinary extensible objects), but JSON
serialization — used both by `res.json` for the response and for the
update payload — keeps only the indexed elements, so the stamp is
dropped from both the response body and the stored value; on a
primitive (`null`, boolean, number, string) the strict-mode assignment
throws a `TypeError`, caught as a 500 with no update. -/
def emailHandler (db : List BlogRow) (id : String) (content : Option Json)
    (reply : List Char) (ts : String) : HResp × List BlogRow :=
  if !(optTruthy content) then (err400 "Content is required", db)
  else
    match jsonParse (cleanFence reply) with
    | some (.obj kvs) =>
      let campaign := Json.obj (jsSetField kvs "generated_at" (.str ts))
      (⟨200, campaign⟩, dbUpdate db id (applyEmail campaign))
    | some (.arr xs) =>
      (⟨200, .arr xs⟩, dbUpdate db id (applyEmail (.arr xs)))
    | _ => (err500 "Failed to generate email campaign", db)

/-- Outcome of `GET /api/posts/:id`: either the row, or an error
response. -/
inductive GetPostOut where
  | ok (r : BlogRow)
  | err (status : Nat) (body : Json)

/-- `GET /api/posts/:id`: `maybeSingle()` then an explicit not-found
throw, caught as a 500. -/
def getPostHandler (db : List BlogRow) (id : String) : GetPostOut :=
  match db.find? (fun r => r.id = id) with
  | some r => .ok r
  | none => .err 500 (.obj [("error", .str "Failed to fetch blog post")])

/-- Request body of `POST /api/posts`. -/
structure SavePostBody where
  user_id : Option Json
  company_id : Option Json
  title_concept : Option Json
  structure_ : Option Json
  facts : Option Json
  article : Option Json
  polished : Option Json
  final_html : Option Json

/-- The derived metadata object of `POST /api/posts`. -/
structure PostMetadata where
  title : Option Json
  keywords : Json
  sections : Json
  research_questions : Json
  facts : Json

/-- `structure?.k`: optional chaining returns `undefined` when
`structure` is absent or `null`. -/
def chainGet (v : Option Json) (k : String) : Option Json :=
  match v with
  | some s => jsGetOpt s k
  | none => none

/-- Metadata derivation of `POST /api/posts`, with the `||` defaults of
the source. -/
def deriveMetadata (b : SavePostBody) : PostMetadata :=
  { title := chainGet b.structure_ "title"
    keywords := jsOrDefault (chainGet b.structure_ "keywords") (.arr [])
    sections := jsOrDefault (chainGet b.structure_ "sections") (.arr [])
    research_questions := jsOrDefault (chainGet b.structure_ "research_questions") (.obj [])
    facts := jsOrDefault b.facts (.obj []) }

/-- Response of `POST /api/posts`: the inserted row, or an error. -/
inductive SaveResp where
  | okRow (r : BlogRow)
  | errJson (status : Nat) (body : Json)

/-- Status code of a `SaveResp` (`res.json` replies are 200). -/
def saveRespStatus : SaveResp → Nat
  | .okRow _ => 200
  | .errJson s _ => s

/-- Full outcome of `POST /api/posts`: whether the insert was attempted,
the metadata handed to the insert, and the response. -/
structure SaveOutcome where
  attemptedInsert : Bool
  insertedMetadata : PostMetadata
  response : SaveResp

/-- `POST /api/posts`: no validation at all; derive metadata, always
attempt the insert (its outcome is the `ins` parameter), 500 only when
the insert fails. -/
def savePostHandler (b : SavePostBody) (ins : Except Unit BlogRow) : SaveOutcome :=
  { attemptedInsert := true
    insertedMetadata := deriveMetadata b
    response :=
      match ins with
      | .ok row => .okRow row
      | .error _ => .errJson 500 (.obj [("error", .str "Failed to save blog post")]) }

/-- Flat dollar check over a facts response body (a question-to-answer
string mapping): some key or string value contains a literal `$`. -/
def factsBodyHasDollar : Json → Bool
  | .obj kvs =>
    kvs.any (fun p =>
      p.1.toList.contains '$' ||
      (match p.2 with
       | .str s => s.toList.contains '$'
       | _ => false))
  | _ => false

/-- The columns a social update must not touch: everything except the
eight social columns and `social_posts_generated_at`. -/
def socialFrame (r : BlogRow) :=
  (r.id, r.user_id, r.company_id, r.title_concept, r.structure_, r.facts,
   r.article, r.polished, r.final_html, r.metadata, r.created_at,
   r.email_drip_campaigns)

/-- The columns an email-campaign update must not touch: everything
except `email_drip_campaigns`. -/
def emailFrame (r : BlogRow) :=
  (r.id, r.user_id, r.company_id, r.title_concept, r.structure_, r.facts,
   r.article, r.polished, r.final_html, r.metadata, r.created_at,
   r.instagram_post_content, r.instagram_hashtags, r.facebook_post_content,
   r.facebook_post_link, r.x_post_content, r.x_hashtags,
   r.linkedin_post_content, r.linkedin_post_link, r.social_posts_generated_at)

/-! ### Fence-stripping lemmas (towards C1) -/

theorem chkPre_refl_append (p : List Char) : ∀ u, chkPre p (p ++ u) = true := by
  induction p with
  | nil => intro u; rfl
  | cons a as ih => intro u; simp [chkPre, ih]

theorem chkPre_exists {p : List Char} : ∀ {s}, chkPre p s = true → ∃ u, s = p ++ u := by
  induction p with
  | nil => intro s _; exact ⟨s, rfl⟩
  | cons a as ih =>
    intro s h
    match s with
    | [] => simp [chkPre] at h
    | b :: bs =>
      by_cases hab : a = b
      · subst hab
        simp only [chkPre, if_pos rfl] at h
        obtain ⟨u, hu⟩ := ih h
        exact ⟨u, by rw [hu]; rfl⟩
      · simp only [chkPre, if_neg hab] at h
        cases h

theorem stripJsonFence_id {t : List Char} (h : hasJF t = false) :
    stripJsonFence t = t := by
  induction t with
  | nil => rfl
  | cons c rest ih =>
    rw [hasJF, Bool.or_eq_false_iff] at h
    rw [stripJsonFence, if_neg (by rw [h.1]; exact Bool.false_ne_true), ih h.2]

theorem stripJsonFence_pat (s : List Char) : stripJsonFence (jfPat ++ s) = s := rfl

theorem endsTicksJson_cons {c : Char} {rest : List Char}
    (h : endsTicksJson (c :: rest) = false) : endsTicksJson rest = false := by
  by_contra hcon
  replace hcon : endsTicksJson rest = true := by
    cases hx : endsTicksJson rest
    · exact absurd hx hcon
    · rfl
  obtain ⟨u, hu⟩ := chkPre_exists hcon
  have : endsTicksJson (c :: rest) = true := by
    rw [endsTicksJson, List.reverse_cons, hu, List.append_assoc]
    exact chkPre_refl_append _ _
  rw [this] at h
  cases h

theorem chkPre_jf_cross {t : List Char}
    (h1 : chkPre jfPat t = false) (h2 : endsTicksJson t = false) :
    chkPre jfPat (t ++ '\n' :: [btick, btick, btick]) = false := by
  by_contra hcon
  replace hcon : chkPre jfPat (t ++ '\n' :: [btick, btick, btick]) = true := by
    cases hx : chkPre jfPat (t ++ '\n' :: [btick, btick, btick])
    · exact absurd hx hcon
    · rfl
  obtain ⟨u, hu⟩ := chkPre_exists hcon
  have hlen : t.length = u.length + 4 := by
    simpa [jfPat] using congrArg List.length hu
  rcases Nat.lt_or_ge t.length 8 with hlt | hge
  · -- the match would have to cross the boundary
    have hul : u.length < 4 := by omega
    have hdrop := congrArg (List.drop t.length) hu
    rw [List.drop_left] at hdrop
    interval_cases hn : u.length
    · have h4 : t.length = 4 := by omega
      rw [h4] at hdrop
      have : (jfPat ++ u).drop 4 = 's' :: 'o' :: 'n' :: '\n' :: u := rfl
      rw [this] at hdrop
      simp at hdrop
    · have h5 : t.length = 5 := by omega
      rw [h5] at hdrop
      have : (jfPat ++ u).drop 5 = 'o' :: 'n' :: '\n' :: u := rfl
      rw [this] at hdrop
      simp at hdrop
    · have h6 : t.length = 6 := by omega
      rw [h6] at hdrop
      have : (jfPat ++ u).drop 6 = 'n' :: '\n' :: u := rfl
      rw [this] at hdrop
      simp at hdrop
    · -- t.length = 7 : t is exactly the seven characters excluded by h2
      have htake := congrArg (List.take 7) hu
      rw [List.take_append_of_le_length (by omega)] at htake
      have h7 : (jfPat ++ u).take 7 = [btick, btick, btick, 'j', 's', 'o', 'n'] := rfl
      rw [h7, List.take_of_length_le (by omega)] at htake
      have : endsTicksJson t = true := by
        rw [htake]; rfl
      rw [this] at h2
      cases h2
  · -- t itself starts with the pattern, excluded by h1
    have htake := congrArg (List.take 8) hu
    rw [List.take_append_of_le_length hge] at htake
    have h8 : (jfPat ++ u).take 8 = jfPat := rfl
    rw [h8] at htake
    have hsplit : t = jfPat ++ t.drop 8 := by
      conv_lhs => rw [← List.take_append_drop 8 t]
      rw [htake]
    rw [hsplit, chkPre_refl_append] at h1
    cases h1

theorem hasJF_append {t : List Char}
    (h1 : hasJF t = false) (h2 : endsTicksJson t = false) :
    hasJF (t ++ '\n' :: [btick, btick, btick]) = false := by
  induction t with
  | nil => rfl
  | cons c rest ih =>
    rw [hasJF, Bool.or_eq_false_iff] at h1
    rw [List.cons_append, hasJF, Bool.or_eq_false_iff]
    constructor
    · exact chkPre_jf_cross h1.1 h2
    · exact ih h1.2 (endsTicksJson_cons h2)

theorem st_cons_ne (c : Char) (s : List Char) (hc : c ≠ btick) :
    stripTicks (c :: s) = c :: stripTicks s := by
  match s with
  | [] => rfl
  | [d] => rfl
  | d :: e :: s' =>
    rw [stripTicks, if_neg (fun hand => hc hand.1)]

theorem st_bt2_ne (d : Char) (s : List Char) (hd : d ≠ btick) :
    stripTicks (btick :: d :: s) = btick :: d :: stripTicks s := by
  match s with
  | [] => rfl
  | e :: s' =>
    rw [stripTicks, if_neg (fun hand => hd hand.2.1)]
    rw [st_cons_ne d (e :: s') hd]

theorem st_2bt_ne (e : Char) (s : List Char) (he : e ≠ btick) :
    stripTicks (btick :: btick :: e :: s) = btick :: btick :: e :: stripTicks s := by
  rw [stripTicks, if_neg (fun hand => he hand.2.2)]
  rw [st_bt2_ne e s he]

theorem st_ticks (u : List Char) :
    stripTicks (btick :: btick :: btick :: u) = stripTicks u := rfl

theorem stripTicks_append_nl (r : List Char) :
    ∀ t : List Char, stripTicks (t ++ '\n' :: r) = stripTicks t ++ '\n' :: stripTicks r := by
  have hnl : ('\n' : Char) ≠ btick := by decide
  have key : ∀ n t, t.length ≤ n →
      stripTicks (t ++ '\n' :: r) = stripTicks t ++ '\n' :: stripTicks r := by
    intro n
    induction n with
    | zero =>
      intro t ht
      have h0 : t = [] := List.length_eq_zero.mp (Nat.le_zero.mp ht)
      subst h0
      simpa using st_cons_ne '\n' r hnl
    | succ n ih =>
      intro t ht
      match t with
      | [] => simpa using st_cons_ne '\n' r hnl
      | c :: t' =>
        by_cases hc : c = btick
        · subst hc
          match t' with
          | [] =>
            show stripTicks (btick :: '\n' :: r) = stripTicks [btick] ++ '\n' :: stripTicks r
            rw [st_bt2_ne '\n' r hnl]
            rfl
          | d :: t'' =>
            by_cases hd : d = btick
            · subst hd
              match t'' with
              | [] =>
                show stripTicks (btick :: btick :: '\n' :: r) =
                  stripTicks [btick, btick] ++ '\n' :: stripTicks r
                rw [st_2bt_ne '\n' r hnl]
                rfl
              | e :: t₃ =>
                by_cases he : e = btick
                · subst he
                  have iht : t₃.length ≤ n := by
                    simp only [List.length_cons] at ht
                    omega
                  show stripTicks (btick :: btick :: btick :: (t₃ ++ '\n' :: r)) =
                    stripTicks (btick :: btick :: btick :: t₃) ++ '\n' :: stripTicks r
                  rw [st_ticks, st_ticks, ih t₃ iht]
                · have iht : (e :: t₃).length ≤ n := by
                    simp only [List.length_cons] at ht ⊢
                    omega
                  show stripTicks (btick :: btick :: e :: (t₃ ++ '\n' :: r)) =
                    stripTicks (btick :: btick :: e :: t₃) ++ '\n' :: stripTicks r
                  rw [st_2bt_ne e _ he, st_2bt_ne e _ he]
                  have := ih (e :: t₃) iht
                  rw [List.cons_append, st_cons_ne e _ he, st_cons_ne e t₃ he,
                    List.cons_append] at this
                  injection this with h1 h2
                  rw [h2]
                  rfl
            · have iht : (d :: t'').length ≤ n := by
                simp only [List.length_cons] at ht ⊢
                omega
              show stripTicks (btick :: d :: (t'' ++ '\n' :: r)) =
                stripTicks (btick :: d :: t'') ++ '\n' :: stripTicks r
              rw [st_bt2_ne d _ hd, st_bt2_ne d _ hd]
              have := ih (d :: t'') iht
              rw [List.cons_append, st_cons_ne d _ hd, st_cons_ne d t'' hd,
                List.cons_append] at this
              injection this with h1 h2
              rw [h2]
              rfl
        · have iht : t'.length ≤ n := by
            simp only [List.length_cons] at ht
            omega
          show stripTicks (c :: (t' ++ '\n' :: r)) =
            stripTicks (c :: t') ++ '\n' :: stripTicks r
          rw [st_cons_ne c _ hc, st_cons_ne c _ hc, ih t' iht]
          rfl
  exact fun t => key t.length t le_rfl

theorem jsTrim_cons_nl (y : List Char) : jsTrim ('\n' :: y) = jsTrim y := by
  have h : isWsJs '\n' = true := rfl
  simp [jsTrim, List.dropWhile_cons, h]

theorem jsTrim_concat_nl (x : List Char) : jsTrim (x ++ ['\n']) = jsTrim x := by
  have hnl : isWsJs '\n' = true := rfl
  rw [jsTrim, jsTrim, List.dropWhile_append]
  by_cases hx : (x.dropWhile isWsJs).isEmpty
  · rw [if_pos hx]
    have h1 : List.dropWhile isWsJs ['\n'] = [] := rfl
    have h2 : x.dropWhile isWsJs = [] := by
      cases he : x.dropWhile isWsJs
      · rfl
      · rw [he] at hx; cases hx
    rw [h1, h2]
  · rw [if_neg hx]
    exact List.rdropWhile_concat_pos _ _ _ hnl

theorem toList_jsonFence : "```json\n".toList = jfPat := rfl

theorem toList_closeFence : "\n```".toList = '\n' :: [btick, btick, btick] := rfl

theorem toList_openFence : "```\n".toList = btick :: btick :: btick :: '\n' :: [] := rfl

/-- C1: For every provider reply string, stripping markdown code fences and
then parsing yields the same result for a fenced reply as for its unfenced
equivalent: for every JSON text `t` (any string `t` in which the pattern
```` ```json\n ```` does not occur and which does not end in ```` ```json ````
— both impossible for valid JSON text, which cannot contain a raw newline
inside a string literal and cannot end in the letter `n`), applying the
stage response-unwrapping to ```` ```json\n ```` `++ t ++` ```` \n``` ````,
to ```` ```\n ```` `++ t ++` ```` \n``` ````, and to `t` itself produces the
same cleaned string, hence the same parsed value. -/
theorem fence_unwrap_invariant (t : List Char)
    (h1 : hasJF t = false) (h2 : endsTicksJson t = false) :
    cleanFence ("```json\n".toList ++ t ++ "\n```".toList) = cleanFence t ∧
    cleanFence ("```\n".toList ++ t ++ "\n```".toList) = cleanFence t ∧
    jsonParse (cleanFence ("```json\n".toList ++ t ++ "\n```".toList)) =
      jsonParse (cleanFence t) ∧
    jsonParse (cleanFence ("```\n".toList ++ t ++ "\n```".toList)) =
      jsonParse (cleanFence t) := by
  have hsjf : stripJsonFence t = t := stripJsonFence_id h1
  have hstrip3 : stripTicks [btick, btick, btick] = [] := rfl
  have hA : cleanFence ("```json\n".toList ++ t ++ "\n```".toList) = cleanFence t := by
    show cleanFence (jfPat ++ (t ++ '\n' :: [btick, btick, btick])) = cleanFence t
    rw [cleanFence, stripJsonFence_pat, stripTicks_append_nl, hstrip3,
      jsTrim_concat_nl, cleanFence, hsjf]
  have hB : cleanFence ("```\n".toList ++ t ++ "\n```".toList) = cleanFence t := by
    show cleanFence (btick :: btick :: btick :: '\n' ::
      (t ++ '\n' :: [btick, btick, btick])) = cleanFence t
    have hjf2 : hasJF (btick :: btick :: btick :: '\n' ::
        (t ++ '\n' :: [btick, btick, btick])) = false := by
      have hstep : ∀ u, hasJF (btick :: btick :: btick :: '\n' :: u) = hasJF u :=
        fun u => rfl
      rw [hstep]
      exact hasJF_append h1 h2
    rw [cleanFence, stripJsonFence_id hjf2, st_ticks,
      st_cons_ne '\n' _ (by decide), stripTicks_append_nl, hstrip3,
      jsTrim_cons_nl, jsTrim_concat_nl, cleanFence, hsjf]
  exact ⟨hA, hB, congrArg jsonParse hA, congrArg jsonParse hB⟩

/-- Witness for C1 at the concrete JSON text `{"a":1}`. -/
theorem fence_unwrap_invariant_witness :
    hasJF "\x7b\"a\":1\x7d".toList = false ∧
    endsTicksJson "\x7b\"a\":1\x7d".toList = false ∧
    (cleanFence ("```json\n".toList ++ "\x7b\"a\":1\x7d".toList ++ "\n```".toList) =
       cleanFence "\x7b\"a\":1\x7d".toList ∧
     cleanFence ("```\n".toList ++ "\x7b\"a\":1\x7d".toList ++ "\n```".toList) =
       cleanFence "\x7b\"a\":1\x7d".toList ∧
     jsonParse (cleanFence ("```json\n".toList ++ "\x7b\"a\":1\x7d".toList ++ "\n```".toList)) =
       jsonParse (cleanFence "\x7b\"a\":1\x7d".toList) ∧
     jsonParse (cleanFence ("```\n".toList ++ "\x7b\"a\":1\x7d".toList ++ "\n```".toList)) =
       jsonParse (cleanFence "\x7b\"a\":1\x7d".toList)) :=
  ⟨rfl, rfl, fence_unwrap_invariant "\x7b\"a\":1\x7d".toList rfl rfl⟩

/-! ### C4: structure-request validation -/

/-- C4: For every structure request in which `titleConcept` is absent,
`company` is absent, or `company` lacks any of `company_name`,
`industry`, `tagline`, the handler returns HTTP 400 with a JSON body
containing an `error` field, and no external provider call is made. -/
theorem structure_validation_400 (req : StructureReq) (reply : List Char)
    (h : req.titleConcept = none ∨ req.company = none ∨
         (∃ c, req.company = some c ∧
            (jsGetOpt c "company_name" = none ∨ jsGetOpt c "industry" = none ∨
             jsGetOpt c "tagline" = none))) :
    (structureHandler req reply).1.status = 400 ∧
    jsHasKey (structureHandler req reply).1.body "error" = true ∧
    (structureHandler req reply).2 = false := by
  rcases h with h | h | ⟨c, hc, hf⟩
  · simp [structureHandler, h, optTruthy, err400, jsHasKey, jsGetOpt, jsObjGet]
  · simp [structureHandler, h, optTruthy, err400, jsHasKey, jsGetOpt, jsObjGet]
  · simp only [structureHandler, hc]
    split
    · exact ⟨rfl, rfl, rfl⟩
    · rcases hf with hf | hf | hf <;>
      · rw [hf]
        simp [optTruthy, err400, jsHasKey, jsGetOpt, jsObjGet]

/-- Witness for C4: a request with both fields absent. -/
theorem structure_validation_400_witness :
    (structureHandler ⟨none, none⟩ []).1.status = 400 ∧
    jsHasKey (structureHandler ⟨none, none⟩ []).1.body "error" = true ∧
    (structureHandler ⟨none, none⟩ []).2 = false :=
  structure_validation_400 ⟨none, none⟩ [] (Or.inl rfl)

/-! ### C7: fetching a non-existent post -/

/-- C7: For every id that does not identify an existing blog-post row,
`GET /api/posts/:id` returns an error response (a JSON body with an
`error` field) and not a row, and the status used for this domain-level
not-found is 500. -/
theorem getPost_notFound_500 (db : List BlogRow) (id : String)
    (h : ∀ r ∈ db, r.id ≠ id) :
    getPostHandler db id =
      .err 500 (.obj [("error", .str "Failed to fetch blog post")]) ∧
    ∀ r : BlogRow, getPostHandler db id ≠ .ok r := by
  have hfind : db.find? (fun r => r.id = id) = none := by
    rw [List.find?_eq_none]
    intro r hr
    simp [h r hr]
  rw [getPostHandler, hfind]
  exact ⟨rfl, fun r h' => by cases h'⟩

/-- Witness for C7: the empty datastore has no row with id "p". -/
theorem getPost_notFound_500_witness :
    getPostHandler [] "p" =
      .err 500 (.obj [("error", .str "Failed to fetch blog post")]) ∧
    ∀ r : BlogRow, getPostHandler [] "p" ≠ .ok r :=
  getPost_notFound_500 [] "p" (by intro r hr; cases hr)

/-! ### C5: updates touch only their own columns -/

theorem dbUpdate_applyEmail_frame (db : List BlogRow) (id : String) (v : Json) :
    (dbUpdate db id (applyEmail v)).map emailFrame = db.map emailFrame := by
  rw [dbUpdate, List.map_map]
  apply List.map_congr_left
  intro r _
  by_cases hr : r.id = id
  · simp [hr, Function.comp, applyEmail, emailFrame]
  · simp [hr, Function.comp]

/-- C5: For every stored blog-post row and every social-post update and
email-campaign update, each update writes only its own columns: the
social update changes only the eight social-media columns plus
`social_posts_generated_at` (leaving `email_drip_campaigns` and all
other fields unchanged on every row), and the email-campaign update
changes only `email_drip_campaigns` (leaving all social columns and all
other fields unchanged on every row); error paths leave the datastore
untouched entirely. -/
theorem updates_write_own_columns (db : List BlogRow) (id : String)
    (content : Option Json) (reply : List Char) (ts : String) :
    ((socialHandler db id content reply ts).2).map socialFrame =
      db.map socialFrame ∧
    ((emailHandler db id content reply ts).2).map emailFrame =
      db.map emailFrame := by
  constructor
  · rw [socialHandler]
    split
    · rfl
    · split
      · rfl
      · split
        · rfl
        · split
          · rfl
          · show (dbUpdate db id _).map socialFrame = db.map socialFrame
            rw [dbUpdate, List.map_map]
            apply List.map_congr_left
            intro r _
            by_cases hr : r.id = id
            · simp [hr, Function.comp, applySocial, socialFrame]
            · simp [hr, Function.comp]
  · rw [emailHandler]
    split
    · rfl
    · split
      · exact dbUpdate_applyEmail_frame db id _
      · exact dbUpdate_applyEmail_frame db id _
      · rfl

/-! ### C10: saving a post never validates -/

/-- C10: `POST /api/posts` performs no input validation: for every
request body, including one with every field absent, the handler never
returns 400; it derives the metadata object with defaults (`keywords`
`[]`, `sections` `[]`, `research_questions` `{}`, `facts` `{}` when the
corresponding source is absent) and always attempts the datastore
insert, failing only with a 500 if the insert itself fails. -/
theorem savePost_no_validation (b : SavePostBody) (ins : Except Unit BlogRow) :
    saveRespStatus (savePostHandler b ins).response ≠ 400 ∧
    (savePostHandler b ins).attemptedInsert = true ∧
    (∀ e, ins = .error e → (savePostHandler b ins).response =
       .errJson 500 (.obj [("error", .str "Failed to save blog post")])) ∧
    (b.structure_ = none → b.facts = none →
      (savePostHandler b ins).insertedMetadata =
        ⟨none, .arr [], .arr [], .obj [], .obj []⟩) := by
  refine ⟨?_, rfl, ?_, ?_⟩
  · cases ins with
    | ok r => simp [savePostHandler, saveRespStatus]
    | error e => simp [savePostHandler, saveRespStatus]
  · intro e he
    subst he
    rfl
  · intro hs hf
    simp [savePostHandler, deriveMetadata, chainGet, hs, hf, jsOrDefault]

/-- Witness for C10: the all-absent body with a failing insert. -/
theorem savePost_no_validation_witness :
    saveRespStatus (savePostHandler ⟨none, none, none, none, none, none, none, none⟩
      (.error ())).response ≠ 400 ∧
    (savePostHandler ⟨none, none, none, none, none, none, none, none⟩
      (.error ())).response =
      .errJson 500 (.obj [("error", .str "Failed to save blog post")]) ∧
    (savePostHandler ⟨none, none, none, none, none, none, none, none⟩
      (.error ())).insertedMetadata =
      ⟨none, .arr [], .arr [], .obj [], .obj []⟩ :=
  ⟨(savePost_no_validation _ _).1,
   (savePost_no_validation _ _).2.2.1 () rfl,
   (savePost_no_validation _ _).2.2.2 rfl rfl⟩

/-! ### C2: the facts-stage dollar rewrite -/

theorem replaceDollar_no_dollar : ∀ s : List Char, '$' ∉ replaceDollar s := by
  intro s
  induction s with
  | nil => simp [replaceDollar]
  | cons c rest ih =>
    by_cases hc : c = '$'
    · rw [replaceDollar, if_pos hc]
      intro hmem
      simp only [List.mem_cons] at hmem
      rcases hmem with h | h | h | h | h
      · exact absurd h (by decide)
      · exact absurd h (by decide)
      · exact absurd h (by decide)
      · exact absurd h (by decide)
      · exact ih h
    · rw [replaceDollar, if_neg hc]
      intro hmem
      simp only [List.mem_cons] at hmem
      rcases hmem with h | h
      · exact hc h.symm
      · exact ih h

/-- C2 (amended): every literal `$` in the raw reply is rewritten to
`USD ` before parsing, so the cleaned text handed to `JSON.parse` never
contains a literal `$` — for every raw provider reply. -/
theorem facts_clean_no_dollar (raw : List Char) : '$' ∉ cleanFacts raw := by
  rw [cleanFacts, removeCtl]
  intro hmem
  exact replaceDollar_no_dollar (cleanFence raw) (List.mem_of_mem_filter hmem)

/-- C2 counterexample: the reply `{"q":"\u0024"}` contains no literal
`$`, survives the cleaning unchanged, parses successfully, and the
resulting mapping value is the one-character string `$` — so the
successful response body of the facts stage can contain a literal `$`. -/
theorem facts_dollar_counterexample :
    (factsHandler (some (.arr [.str "q1"]))
        "\x7b\"q\":\"\\u0024\"\x7d".toList).status = 200 ∧
    (factsHandler (some (.arr [.str "q1"]))
        "\x7b\"q\":\"\\u0024\"\x7d".toList).body = .obj [("q", .str "$")] ∧
    factsBodyHasDollar (factsHandler (some (.arr [.str "q1"]))
        "\x7b\"q\":\"\\u0024\"\x7d".toList).body = true :=
  ⟨rfl, rfl, rfl⟩

/-! ### C3: shape of the structure response -/

/-- C3 (amended): for every valid structure request whose provider reply
parses as JSON, the handler responds 200 with the parsed value returned
verbatim (after a provider call); the five-key shape and the
non-emptiness of `sections` are requested in the prompt but not
enforced, so the response has them exactly when the parsed reply does. -/
theorem structure_response_verbatim (req : StructureReq) (reply : List Char) (v : Json)
    (h1 : optTruthy req.titleConcept = true)
    (h2 : ∃ c, req.company = some c ∧ jsTruthy c = true ∧
       optTruthy (jsGetOpt c "company_name") = true ∧
       optTruthy (jsGetOpt c "industry") = true ∧
       optTruthy (jsGetOpt c "tagline") = true)
    (hp : jsonParse (cleanFence reply) = some v) :
    structureHandler req reply = (⟨200, v⟩, true) := by
  obtain ⟨c, hc, hct, hcn, hci, hcl⟩ := h2
  have hcomp : optTruthy req.company = true := by rw [hc]; exact hct
  simp only [structureHandler, hc, h1, hcomp, hcn, hci, hcl, Bool.and_self,
    Bool.not_true, Bool.false_eq_true, if_false, hp]
  simp [optTruthy, hct]

/-- Witness for the amended C3 at a fully valid request and the reply
`{"title":"t"}`. -/
theorem structure_response_verbatim_witness :
    optTruthy (StructureReq.mk (some (.str "T"))
      (some (.obj [("company_name", .str "A"), ("industry", .str "B"),
                   ("tagline", .str "C")]))).titleConcept = true ∧
    jsonParse (cleanFence "\x7b\"title\":\"t\"\x7d".toList) =
      some (.obj [("title", .str "t")]) ∧
    structureHandler
      (StructureReq.mk (some (.str "T"))
        (some (.obj [("company_name", .str "A"), ("industry", .str "B"),
                     ("tagline", .str "C")])))
      "\x7b\"title\":\"t\"\x7d".toList =
      (⟨200, .obj [("title", .str "t")]⟩, true) :=
  ⟨rfl, rfl,
   structure_response_verbatim _ _ _ rfl
     ⟨_, rfl, rfl, rfl, rfl, rfl⟩ rfl⟩

/-- C3 counterexample: for the valid request below and the provider
reply `{}` — which parses as JSON — the response body is the empty
object: it contains none of the five keys `title`, `hook`, `sections`,
`research_questions`, `keywords`, and has no non-empty `sections`
sequence.  The handler enforces no shape on the parsed reply. -/
theorem structure_shape_counterexample :
    (structureHandler
        (StructureReq.mk (some (.str "T"))
          (some (.obj [("company_name", .str "A"), ("industry", .str "B"),
                       ("tagline", .str "C")])))
        "\x7b\x7d".toList).1.status = 200 ∧
    (structureHandler
        (StructureReq.mk (some (.str "T"))
          (some (.obj [("company_name", .str "A"), ("industry", .str "B"),
                       ("tagline", .str "C")])))
        "\x7b\x7d".toList).1.body = .obj [] ∧
    jsHasKey (structureHandler
        (StructureReq.mk (some (.str "T"))
          (some (.obj [("company_name", .str "A"), ("industry", .str "B"),
                       ("tagline", .str "C")])))
        "\x7b\x7d".toList).1.body "title" = false ∧
    jsHasKey (structureHandler
        (StructureReq.mk (some (.str "T"))
          (some (.obj [("company_name", .str "A"), ("industry", .str "B"),
                       ("tagline", .str "C")])))
        "\x7b\x7d".toList).1.body "sections" = false :=
  ⟨rfl, rfl, rfl, rfl⟩

/-! ### C6: error-status taxonomy -/

/-- C6 (amended): the routes that validate their input — structure,
facts, verify, social, email-campaign, checkout-session — answer a
missing required field with 400 and a JSON body containing an `error`
field; but the article route performs no input validation, so an
article request missing its `company` field throws inside the handler
and is answered 500 (with an error body), not 400. -/
theorem error_status_taxonomy :
    (∀ (req : StructureReq) (reply : List Char), req.titleConcept = none →
       (structureHandler req reply).1.status = 400 ∧
       jsHasKey (structureHandler req reply).1.body "error" = true) ∧
    (∀ reply : List Char, (factsHandler none reply).status = 400 ∧
       jsHasKey (factsHandler none reply).body "error" = true) ∧
    (∀ reply : List Char, (verifyHandler none reply).status = 400 ∧
       jsHasKey (verifyHandler none reply).body "error" = true) ∧
    (∀ (db : List BlogRow) (id : String) (reply : List Char) (ts : String),
       (socialHandler db id none reply ts).1.status = 400 ∧
       jsHasKey (socialHandler db id none reply ts).1.body "error" = true) ∧
    (∀ (db : List BlogRow) (id : String) (reply : List Char) (ts : String),
       (emailHandler db id none reply ts).1.status = 400 ∧
       jsHasKey (emailHandler db id none reply ts).1.body "error" = true) ∧
    (∀ userId : Option Json, createCheckoutSessionValidation none userId =
       some (err400 "Missing required fields")) ∧
    (∀ (req : ArticleReq) (reply : String), req.company = none →
       (articleHandler req reply).status = 500 ∧
       jsHasKey (articleHandler req reply).body "error" = true ∧
       (articleHandler req reply).status ≠ 400) := by
  refine ⟨?_, ?_, ?_, ?_, ?_, ?_, ?_⟩
  · intro req reply h
    simp [structureHandler, h, optTruthy, err400, jsHasKey, jsGetOpt, jsObjGet]
  · intro reply
    exact ⟨rfl, rfl⟩
  · intro reply
    exact ⟨rfl, rfl⟩
  · intro db id reply ts
    exact ⟨rfl, rfl⟩
  · intro db id reply ts
    exact ⟨rfl, rfl⟩
  · intro userId
    rfl
  · intro req reply h
    simp [articleHandler, h, err500, jsHasKey, jsGetOpt, jsObjGet]

/-- Witness for the amended C6 at concrete requests. -/
theorem error_status_taxonomy_witness :
    (structureHandler ⟨none, some (.str "co")⟩ []).1.status = 400 ∧
    (factsHandler none []).status = 400 ∧
    (verifyHandler none []).status = 400 ∧
    (socialHandler [] "p" none [] "ts").1.status = 400 ∧
    (emailHandler [] "p" none [] "ts").1.status = 400 ∧
    createCheckoutSessionValidation none (some (.str "u")) =
      some (err400 "Missing required fields") ∧
    (articleHandler ⟨none, none, none, none, none⟩ "").status = 500 :=
  ⟨(error_status_taxonomy.1 ⟨none, some (.str "co")⟩ [] rfl).1,
   (error_status_taxonomy.2.1 []).1,
   (error_status_taxonomy.2.2.1 []).1,
   (error_status_taxonomy.2.2.2.1 [] "p" [] "ts").1,
   (error_status_taxonomy.2.2.2.2.1 [] "p" [] "ts").1,
   error_status_taxonomy.2.2.2.2.2.1 (some (.str "u")),
   (error_status_taxonomy.2.2.2.2.2.2 ⟨none, none, none, none, none⟩ "" rfl).1⟩

/-- C6 counterexample: an article request with `company` absent is
answered 500, not 400, because the article route has no input
validation and the property read on `undefined` throws. -/
theorem article_missing_company_counterexample :
    (articleHandler ⟨none, none, none, none, none⟩ "").status = 500 ∧
    ¬((articleHandler ⟨none, none, none, none, none⟩ "").status = 400) :=
  ⟨rfl, by decide⟩

/-! ### C8: social-post error paths leave the datastore unchanged -/

theorem getChanField_ok_elim {sp : Json} {chan fld : String} {x : Option Json}
    (h : getChanField sp chan fld = .ok x) :
    ∃ v, jsMember sp chan = .ok (some v) := by
  rw [getChanField] at h
  split at h
  · cases h
  · cases h
  · next v heq => exact ⟨v, heq⟩

theorem buildSocialArgs_ok_elim {sp : Json} {a : SocialArgs}
    (h : buildSocialArgs sp = .ok a) :
    (∃ v, jsMember sp "Instagram" = .ok (some v)) ∧
    (∃ v, jsMember sp "Facebook" = .ok (some v)) ∧
    (∃ v, jsMember sp "X" = .ok (some v)) ∧
    (∃ v, jsMember sp "LinkedIn" = .ok (some v)) := by
  rw [buildSocialArgs] at h
  split at h
  · next h1 h2 h3 h4 h5 h6 h7 h8 =>
    exact ⟨getChanField_ok_elim h1, getChanField_ok_elim h3,
           getChanField_ok_elim h5, getChanField_ok_elim h7⟩
  · cases h

/-- C8: For every `POST /api/posts/:id/social` request, on every error
path — the provider reply fails to parse as JSON, the post id does not
exist, or the parsed object lacks any of the four channels `Instagram`,
`Facebook`, `X`, `LinkedIn` — the handler responds 500 and performs no
database update, so the stored rows are unchanged on error. -/
theorem social_error_paths_no_update (db : List BlogRow) (id : String)
    (content : Option Json) (reply : List Char) (ts : String)
    (hc : optTruthy content = true)
    (herr : jsonParse (jsTrim reply) = none ∨
            (∀ r ∈ db, r.id ≠ id) ∨
            (∃ sp, jsonParse (jsTrim reply) = some sp ∧
               ((∀ v, jsMember sp "Instagram" ≠ .ok (some v)) ∨
                (∀ v, jsMember sp "Facebook" ≠ .ok (some v)) ∨
                (∀ v, jsMember sp "X" ≠ .ok (some v)) ∨
                (∀ v, jsMember sp "LinkedIn" ≠ .ok (some v))))) :
    (socialHandler db id content reply ts).1.status = 500 ∧
    (socialHandler db id content reply ts).2 = db := by
  simp only [socialHandler, hc, Bool.not_true, Bool.false_eq_true, if_false]
  split
  · exact ⟨rfl, rfl⟩
  · next sp hpp =>
    split
    · exact ⟨rfl, rfl⟩
    · next r0 hfind =>
      split
      · exact ⟨rfl, rfl⟩
      · next args hb =>
        exfalso
        rcases herr with hp | hid | ⟨sp2, hp, hch⟩
        · rw [hp] at hpp
          cases hpp
        · have hnone : db.find? (fun r => r.id = id) = none := by
            rw [List.find?_eq_none]
            intro r hr
            simp [hid r hr]
          rw [hnone] at hfind
          cases hfind
        · rw [hp] at hpp
          injection hpp with he
          subst he
          obtain ⟨hI, hF, hX, hL⟩ := buildSocialArgs_ok_elim hb
          rcases hch with hch | hch | hch | hch
          · obtain ⟨v, hv⟩ := hI
            exact hch v hv
          · obtain ⟨v, hv⟩ := hF
            exact hch v hv
          · obtain ⟨v, hv⟩ := hX
            exact hch v hv
          · obtain ⟨v, hv⟩ := hL
            exact hch v hv

/-- Witness for C8: a reply that is not JSON, against the empty
datastore. -/
theorem social_error_paths_no_update_witness :
    optTruthy (some (.str "x")) = true ∧
    jsonParse (jsTrim "nope".toList) = none ∧
    ((socialHandler [] "p" (some (.str "x")) "nope".toList "ts").1.status = 500 ∧
     (socialHandler [] "p" (some (.str "x")) "nope".toList "ts").2 = []) :=
  ⟨rfl, rfl,
   social_error_paths_no_update [] "p" (some (.str "x")) "nope".toList "ts" rfl
     (Or.inl rfl)⟩

/-! ### C9: email campaign persisted equals response -/

theorem jsObjGet_setField (kvs : List (String × Json)) (k : String) (v : Json) :
    jsObjGet (jsSetField kvs k v) k = some v := by
  induction kvs with
  | nil => simp [jsSetField, jsObjGet]
  | cons p rest ih =>
    obtain ⟨k', v'⟩ := p
    by_cases hk : k' = k
    · rw [jsSetField, if_pos hk, jsObjGet, if_pos rfl]
    · rw [jsSetField, if_neg hk, jsObjGet, if_neg hk, ih]

/-- C9 (amended): For every successful `POST /api/posts/:id/email-campaign`
request, the value written to the row's `email_drip_campaigns` column is
identical to the JSON response body; when the parsed provider reply is a
plain object, both additionally carry the server-added `generated_at`
timestamp, but when the parsed reply is an array the success path still
runs (the strict-mode stamp assignment succeeds on an array) and JSON
serialization drops the stamp, so neither the response body nor the
stored value contains `generated_at`. -/
theorem email_campaign_persist_eq_response (db : List BlogRow) (id : String)
    (content : Option Json) (reply : List Char) (ts : String)
    (hc : optTruthy content = true) :
    (∀ kvs, jsonParse (cleanFence reply) = some (.obj kvs) →
       (emailHandler db id content reply ts).1.status = 200 ∧
       (emailHandler db id content reply ts).1.body =
         .obj (jsSetField kvs "generated_at" (.str ts)) ∧
       jsGetOpt (emailHandler db id content reply ts).1.body "generated_at" =
         some (.str ts) ∧
       (emailHandler db id content reply ts).2 =
         db.map (fun r => if r.id = id then { r with email_drip_campaigns := some (emailHandler db id content reply ts).1.body } else r)) ∧
    (∀ xs, jsonParse (cleanFence reply) = some (.arr xs) →
       (emailHandler db id content reply ts).1.status = 200 ∧
       (emailHandler db id content reply ts).1.body = .arr xs ∧
       jsGetOpt (emailHandler db id content reply ts).1.body "generated_at" =
         none ∧
       (emailHandler db id content reply ts).2 =
         db.map (fun r => if r.id = id then { r with email_drip_campaigns := some (emailHandler db id content reply ts).1.body } else r)) := by
  constructor
  · intro kvs hp
    simp only [emailHandler, hc, Bool.not_true, Bool.false_eq_true, if_false, hp]
    refine ⟨trivial, trivial, ?_, rfl⟩
    show jsGetOpt (.obj (jsSetField kvs "generated_at" (.str ts))) "generated_at" =
      some (.str ts)
    rw [jsGetOpt]
    exact jsObjGet_setField kvs "generated_at" (.str ts)
  · intro xs hp
    simp only [emailHandler, hc, Bool.not_true, Bool.false_eq_true, if_false, hp]
    exact ⟨trivial, trivial, rfl, rfl⟩

/-- Witness for the amended C9: the object reply `{"drips":[]}` and the
array reply `[]`, each with the empty datastore. -/
theorem email_campaign_persist_eq_response_witness :
    optTruthy (some (.str "x")) = true ∧
    jsonParse (cleanFence "\x7b\"drips\":[]\x7d".toList) =
      some (.obj [("drips", .arr [])]) ∧
    jsonParse (cleanFence "[]".toList) = some (.arr []) ∧
    ((emailHandler [] "p" (some (.str "x")) "\x7b\"drips\":[]\x7d".toList
        "2025-01-01").1.status = 200 ∧
     (emailHandler [] "p" (some (.str "x")) "\x7b\"drips\":[]\x7d".toList
        "2025-01-01").1.body =
       .obj (jsSetField [("drips", .arr [])] "generated_at" (.str "2025-01-01")) ∧
     jsGetOpt (emailHandler [] "p" (some (.str "x")) "\x7b\"drips\":[]\x7d".toList
        "2025-01-01").1.body "generated_at" = some (.str "2025-01-01") ∧
     (emailHandler [] "p" (some (.str "x")) "\x7b\"drips\":[]\x7d".toList
        "2025-01-01").2 =
       List.map (fun r => if r.id = "p" then { r with email_drip_campaigns := some (emailHandler [] "p" (some (.str "x")) "\x7b\"drips\":[]\x7d".toList "2025-01-01").1.body } else r) []) ∧
    ((emailHandler [] "p" (some (.str "x")) "[]".toList "2025-01-01").1.status = 200 ∧
     (emailHandler [] "p" (some (.str "x")) "[]".toList "2025-01-01").1.body =
       .arr [] ∧
     jsGetOpt (emailHandler [] "p" (some (.str "x")) "[]".toList
        "2025-01-01").1.body "generated_at" = none ∧
     (emailHandler [] "p" (some (.str "x")) "[]".toList "2025-01-01").2 =
       List.map (fun r => if r.id = "p" then { r with email_drip_campaigns := some (emailHandler [] "p" (some (.str "x")) "[]".toList "2025-01-01").1.body } else r) []) :=
  ⟨rfl, rfl, rfl,
   (email_campaign_persist_eq_response [] "p" (some (.str "x"))
     "\x7b\"drips\":[]\x7d".toList "2025-01-01" rfl).1 [("drips", .arr [])] rfl,
   (email_campaign_persist_eq_response [] "p" (some (.str "x"))
     "[]".toList "2025-01-01" rfl).2 [] rfl⟩

/-- C9 counterexample: for the array provider reply `[]` against a
one-row datastore, the request succeeds (status 200), the value written
to `email_drip_campaigns` is identical to the response body, but
neither carries a `generated_at` field — JSON serialization of the
stamped array keeps only its indexed elements.  This refutes the claim
that every successful request yields a response and a stored value that
both contain the server-added `generated_at` timestamp. -/
theorem email_campaign_stamp_counterexample :
    (emailHandler
        [⟨"p", none, none, none, none, none, none, none, none, none, none,
          none, none, none, none, none, none, none, none, none, none⟩]
        "p" (some (.str "x")) "[]".toList "2025-01-01").1.status = 200 ∧
    (emailHandler
        [⟨"p", none, none, none, none, none, none, none, none, none, none,
          none, none, none, none, none, none, none, none, none, none⟩]
        "p" (some (.str "x")) "[]".toList "2025-01-01").1.body = .arr [] ∧
    jsGetOpt (emailHandler
        [⟨"p", none, none, none, none, none, none, none, none, none, none,
          none, none, none, none, none, none, none, none, none, none⟩]
        "p" (some (.str "x")) "[]".toList "2025-01-01").1.body "generated_at" =
      none ∧
    (emailHandler
        [⟨"p", none, none, none, none, none, none, none, none, none, none,
          none, none, none, none, none, none, none, none, none, none⟩]
        "p" (some (.str "x")) "[]".toList "2025-01-01").2 =
      [⟨"p", none, none, none, none, none, none, none, none, none, none,
        none, none, none, none, none, none, none, none, none,
        some (.arr [])⟩] ∧
    (∀ r ∈ (emailHandler
        [⟨"p", none, none, none, none, none, none, none, none, none, none,
          none, none, none, none, none, none, none, none, none, none⟩]
        "p" (some (.str "x")) "[]".toList "2025-01-01").2,
      r.email_drip_campaigns = some (.arr []) ∧
      (∀ v, r.email_drip_campaigns = some v →
        jsGetOpt v "generated_at" = none)) :=
  ⟨rfl, rfl, rfl, rfl, by
    intro r hr
    cases hr with
    | head => exact ⟨rfl, fun v hv => by injection hv with h; subst h; rfl⟩
    | tail _ h => cases h⟩
